import Mathlib

/-!
Verification development for the Discord-video-stream playback layer.

This file embeds the code of src/media/newApi.ts (the playStream session
orchestration: cleanup registration, terminal-path racing, the burst
controller armed on the readrateInitialBurst option) and of the AudioStream
class (mute, volume clamp, per-frame volume processing with fallback).

JavaScript numbers are modelled by the type JSNum: NaN, the two infinities,
and finite values as rationals. The comparison and min operations follow
the JavaScript semantics (every comparison with NaN is false, Math.min
propagates NaN, strict equality on NaN is always false).
-/

/-- Model of a JavaScript number: NaN, positive or negative infinity, or a
finite value represented as a rational. -/
inductive JSNum where
  | nan : JSNum
  | pinf : JSNum
  | ninf : JSNum
  | fin : ℚ → JSNum
deriving DecidableEq

/-- JavaScript comparison a < b. Any comparison involving NaN is false. -/
def jsLt (a b : JSNum) : Bool :=
  match a, b with
  | JSNum.nan, _ => false
  | _, JSNum.nan => false
  | JSNum.ninf, JSNum.ninf => false
  | JSNum.ninf, _ => true
  | JSNum.pinf, _ => false
  | JSNum.fin _, JSNum.ninf => false
  | JSNum.fin _, JSNum.pinf => true
  | JSNum.fin x, JSNum.fin y => decide (x < y)

/-- JavaScript Math.min: returns NaN when either argument is NaN. -/
def jsMin (a b : JSNum) : JSNum :=
  match a, b with
  | JSNum.nan, _ => JSNum.nan
  | _, JSNum.nan => JSNum.nan
  | JSNum.ninf, _ => JSNum.ninf
  | _, JSNum.ninf => JSNum.ninf
  | JSNum.pinf, y => y
  | x, JSNum.pinf => x
  | JSNum.fin x, JSNum.fin y => JSNum.fin (min x y)

/-- JavaScript strict equality on numbers: NaN is equal to nothing,
including itself. -/
def jsSEq (a b : JSNum) : Bool :=
  match a, b with
  | JSNum.nan, _ => false
  | _, JSNum.nan => false
  | JSNum.pinf, JSNum.pinf => true
  | JSNum.pinf, _ => false
  | JSNum.ninf, JSNum.ninf => true
  | JSNum.ninf, _ => false
  | JSNum.fin x, JSNum.fin y => decide (x = y)
  | JSNum.fin _, _ => false

/-- State of an AudioStream instance: the private mute flag and the stored
volume (source fields isMuted and volume of the AudioStream class). -/
structure AudioStream where
  isMuted : Bool
  volume : JSNum
deriving DecidableEq

/-- The AudioStream constructor: volume starts at 1.0, the mute flag starts
at the initialMuted argument. -/
def AudioStream.create (initialMuted : Bool) : AudioStream :=
  { isMuted := initialMuted, volume := JSNum.fin 1 }

/-- mute() sets the internal mute flag. -/
def AudioStream.mute (s : AudioStream) : AudioStream :=
  { s with isMuted := true }

/-- unmute() clears the internal mute flag. -/
def AudioStream.unmute (s : AudioStream) : AudioStream :=
  { s with isMuted := false }

/-- setVolume(volume): if volume < 0 store 0, otherwise store
Math.min(volume, 2.0). -/
def AudioStream.setVolume (s : AudioStream) (v : JSNum) : AudioStream :=
  if jsLt v (JSNum.fin 0) then { s with volume := JSNum.fin 0 }
  else { s with volume := jsMin v (JSNum.fin 2) }

/-- getVolume() returns the stored volume. -/
def AudioStream.getVolume (s : AudioStream) : JSNum := s.volume

/-- The per-sample transform of the volume-processing loop:
Math.max(-32768, Math.min(32767, Math.floor(sample * volume))), with the
JavaScript arithmetic on NaN and the infinities spelled out (a NaN result
is written back as 0 by writeInt16LE). -/
def jsScaleSample (v : JSNum) (s : ℤ) : ℤ :=
  match v with
  | JSNum.nan => 0
  | JSNum.pinf => if 0 < s then 32767 else if s < 0 then -32768 else 0
  | JSNum.ninf => if 0 < s then -32768 else if s < 0 then 32767 else 0
  | JSNum.fin q => max (-32768) (min 32767 ⌊q * (s : ℚ)⌋)

/-- The external opus codec: decode maps a compressed payload to 16-bit PCM
samples (none models a thrown exception), encode maps samples back to a
compressed payload (none models a thrown exception). -/
structure Codec where
  decode : List ℕ → Option (List ℤ)
  encode : List ℤ → Option (List ℕ)

/-- Observable outcome of one AudioStream sendFrame call: the payload and
frametime handed to udp.sendAudioFrame (none when no transport call is
made), whether the decode/re-encode round trip was entered, and whether a
processing error was logged. -/
structure SendResult where
  sent : Option (List ℕ × ℚ)
  decodeAttempted : Bool
  loggedError : Bool
deriving DecidableEq

/-- The sendFrame method of AudioStream: return immediately when muted;
when the volume is strictly-equal to 1.0 forward the frame unchanged;
otherwise decode, scale every sample, re-encode, falling back to the
original frame (and logging) when decode or encode throws; finally call
udp.sendAudioFrame with the processed frame and the unchanged frametime. -/
def AudioStream.sendFrame (s : AudioStream) (c : Codec) (frame : List ℕ)
    (frametime : ℚ) : SendResult :=
  if s.isMuted then { sent := none, decodeAttempted := false, loggedError := false }
  else if jsSEq s.volume (JSNum.fin 1) then
    { sent := some (frame, frametime), decodeAttempted := false, loggedError := false }
  else
    match c.decode frame with
    | none => { sent := some (frame, frametime), decodeAttempted := true, loggedError := true }
    | some pcm =>
      match c.encode (pcm.map (jsScaleSample s.volume)) with
      | none => { sent := some (frame, frametime), decodeAttempted := true, loggedError := true }
      | some processed =>
        { sent := some (processed, frametime), decodeAttempted := true, loggedError := false }

/-- Status of a paced stream: Active, Finished or Errored. -/
inductive StreamStatus where
  | active : StreamStatus
  | finished : StreamStatus
  | errored : StreamStatus
deriving DecidableEq

/-- Modelled from the spec: the per-stream state kept by the
BaseMediaStream class, which is not among the provided sources. It holds
the virtual clock (cumulative frametime of dispatched frames) and the
stream status. -/
structure BaseState where
  clock : ℚ
  status : StreamStatus
deriving DecidableEq

/-- Modelled from the spec: the frame-dispatch step of BaseMediaStream,
which is not among the provided sources. Per the spec, each dispatch calls
the role-specific send hook, then advances the virtual clock by the
frametime of the frame; a transport send failure moves the stream to
Errored and does not advance the clock. The transport is modelled by a
function t giving the success of each sendAudioFrame call. -/
def writeFrame (c : Codec) (t : List ℕ → ℚ → Bool) (b : BaseState)
    (s : AudioStream) (frame : List ℕ) (frametime : ℚ) : BaseState :=
  match b.status with
  | StreamStatus.active =>
    match (s.sendFrame c frame frametime).sent with
    | none => { b with clock := b.clock + frametime }
    | some (p, ft) =>
      if t p ft then { b with clock := b.clock + frametime }
      else { b with status := StreamStatus.errored }
  | _ => b

/-- State touched by the burst controller: the sync flag of the video
stream, the noSleep flags of both streams, whether the stopBurst listener
is still subscribed to the pts events of the video stream, and a count of
how many times the burst-ending flip has run. -/
structure BurstState where
  vSync : Bool
  vNoSleep : Bool
  aNoSleep : Bool
  listenerOn : Bool
  flips : ℕ
deriving DecidableEq

/-- The state set up when playStream arms the burst controller:
vStream.sync = false and noSleep = true on both streams, with the
stopBurst listener subscribed. -/
def burstInit : BurstState :=
  { vSync := false, vNoSleep := true, aNoSleep := true, listenerOn := true, flips := 0 }

/-- The state after the one-shot burst transition has run: sync restored on
the video stream, noSleep cleared on both streams, listener removed. -/
def burstDone : BurstState :=
  { vSync := true, vNoSleep := false, aNoSleep := false, listenerOn := false, flips := 1 }

/-- The stopBurst handler of playStream, invoked on each pts event while
still subscribed: return when pts < burstTime * 1000, otherwise set
vStream.sync = true, clear noSleep on both streams and unsubscribe. -/
def stopBurst (burstTime : ℚ) (s : BurstState) (pts : ℚ) : BurstState :=
  if s.listenerOn = false then s
  else if pts < burstTime * 1000 then s
  else { vSync := true, vNoSleep := false, aNoSleep := false,
         listenerOn := false, flips := s.flips + 1 }

/-- Run of the burst controller over a sequence of pts notifications from
the video stream, starting from the armed state. -/
def burstRun (burstTime : ℚ) (ps : List ℚ) : BurstState :=
  ps.foldl (stopBurst burstTime) burstInit

/-- Externally visible side effects of the cleanup actions registered by
playStream: the console.log of the stopStream placeholder, a real call of
streamer.stopStream, and the two connection-attribute setters. -/
inductive Effect where
  | logAborted : Effect
  | stopStreamCall : Effect
  | setSpeaking : Bool → Effect
  | setVideoAttributes : Bool → Effect
deriving DecidableEq

/-- The stopStream variable of playStream: its assigned body only logs
Aborted to the console; the call of streamer.stopStream is commented out in
the source. -/
def stopStream : List Effect := [Effect.logAborted]

/-- Effects of the cleanup function pushed onto cleanupFuncs inside the
streamPromise executor: stopStream(), setSpeaking(false),
setVideoAttributes(false). This is the full list for a session without
stream preview (the default configuration). -/
def cleanupActions : List Effect :=
  stopStream ++ [Effect.setSpeaking false, Effect.setVideoAttributes false]

/-- Settlement value of a promise: resolved, or rejected with a reason.
Reasons and errors are modelled as natural-number tokens compared by
identity, matching strict equality on distinct JavaScript objects. -/
inductive Outcome where
  | ok : Outcome
  | err : ℕ → Outcome
deriving DecidableEq

/-- State of one playStream session after the terminal-path handlers are
registered: the abort-signal state, the settlement of the inner promise,
the settlement of the returned done promise (the inner promise with the
catch handler applied), the cleanedUp flag, how many times the cleanup body
ran, the accumulated cleanup effects, and the once-flags of the three
stream-event listeners. -/
structure SessionState where
  aborted : Option ℕ
  settled : Option Outcome
  doneOut : Option Outcome
  cleanedUp : Bool
  cleanupRuns : ℕ
  effects : List Effect
  finishFired : Bool
  vErrFired : Bool
  aErrFired : Bool
deriving DecidableEq

/-- The session state right after playStream registers all handlers. -/
def sessionInit : SessionState :=
  { aborted := none, settled := none, doneOut := none, cleanedUp := false,
    cleanupRuns := 0, effects := [], finishFired := false,
    vErrFired := false, aErrFired := false }

/-- The cleanup closure of playStream: guarded by the cleanedUp flag, it
runs every function in cleanupFuncs at most once. -/
def cleanup (s : SessionState) : SessionState :=
  if s.cleanedUp then s
  else
    { s with
      cleanedUp := true
      cleanupRuns := s.cleanupRuns + 1
      effects := s.effects ++ cleanupActions }

/-- resolve() on the inner promise; a promise settles at most once. The
done field records the catch handler of playStream applied at settlement
time: a resolution passes through. -/
def resolveP (s : SessionState) : SessionState :=
  match s.settled with
  | some _ => s
  | none => { s with settled := some Outcome.ok, doneOut := some Outcome.ok }

/-- reject(e) on the inner promise; a promise settles at most once. The
done field records the catch handler of playStream applied at settlement
time: an error strictly equal to the abort reason is swallowed (the catch
does not rethrow it), any other error is rethrown. -/
def rejectP (s : SessionState) (e : ℕ) : SessionState :=
  match s.settled with
  | some _ => s
  | none =>
    { s with
      settled := some (Outcome.err e)
      doneOut := some (if s.aborted = some e then Outcome.ok else Outcome.err e) }

/-- The four terminal triggers racing in playStream: the cancellation
signal firing with a reason, the finish event of the video stream, an error
event of the video stream, and an error event of the audio source stream. -/
inductive Ev where
  | abort : ℕ → Ev
  | finish : Ev
  | verr : ℕ → Ev
  | aerr : ℕ → Ev
deriving DecidableEq

/-- One terminal event processed by the handlers registered in playStream.
The abort listener (added with once = true on a signal that aborts at most
once) runs cleanup then rejects with the reason. The finish and error
listeners (added with once) return early when the signal is already
aborted, otherwise run cleanup and resolve, or reject with the error. -/
def step (s : SessionState) (ev : Ev) : SessionState :=
  match ev with
  | Ev.abort r =>
    match s.aborted with
    | some _ => s
    | none =>
      let s1 := { s with aborted := some r }
      rejectP (cleanup s1) r
  | Ev.finish =>
    if s.finishFired then s
    else
      let s1 := { s with finishFired := true }
      match s1.aborted with
      | some _ => s1
      | none => resolveP (cleanup s1)
  | Ev.verr e =>
    if s.vErrFired then s
    else
      let s1 := { s with vErrFired := true }
      match s1.aborted with
      | some _ => s1
      | none => rejectP (cleanup s1) e
  | Ev.aerr e =>
    if s.aErrFired then s
    else
      let s1 := { s with aErrFired := true }
      match s1.aborted with
      | some _ => s1
      | none => rejectP (cleanup s1) e

/-- A whole session run: the terminal events in the order they fire,
processed from the freshly registered state. -/
def runSession (tr : List Ev) : SessionState :=
  tr.foldl step sessionInit

/-- A codec for concrete instantiations: decode reads each byte as one
sample, encode writes the absolute value of each sample as one byte. -/
def codecId : Codec :=
  { decode := fun b => some (b.map (fun n => (n : ℤ)))
    encode := fun l => some (l.map Int.natAbs) }

/-- A codec whose decode and encode always throw. -/
def codecFail : Codec :=
  { decode := fun _ => none, encode := fun _ => none }

/-- The transport send succeeding on every call. -/
def transportOk : List ℕ → ℚ → Bool := fun _ _ => true

/-- Invariant of the session state: the recorded cleanup effects and the
run counter are fully determined by the cleanedUp flag. -/
def SessionInv (s : SessionState) : Prop :=
  s.effects = (if s.cleanedUp then cleanupActions else []) ∧
  s.cleanupRuns = (if s.cleanedUp then 1 else 0)

theorem rejectP_of_some (s : SessionState) (e : ℕ) (o : Outcome)
    (h : s.settled = some o) : rejectP s e = s := by
  simp [rejectP, h]

theorem resolveP_of_some (s : SessionState) (o : Outcome)
    (h : s.settled = some o) : resolveP s = s := by
  simp [resolveP, h]

theorem cleanup_settled (s : SessionState) : (cleanup s).settled = s.settled := by
  unfold cleanup; split <;> rfl

theorem cleanup_doneOut (s : SessionState) : (cleanup s).doneOut = s.doneOut := by
  unfold cleanup; split <;> rfl

theorem cleanup_aborted (s : SessionState) : (cleanup s).aborted = s.aborted := by
  unfold cleanup; split <;> rfl

theorem cleanup_cleanedUp (s : SessionState) : (cleanup s).cleanedUp = true ∨ cleanup s = s := by
  unfold cleanup; split
  · right; rfl
  · left; rfl

theorem rejectP_projs (s : SessionState) (e : ℕ) :
    (rejectP s e).effects = s.effects ∧ (rejectP s e).cleanedUp = s.cleanedUp ∧
    (rejectP s e).cleanupRuns = s.cleanupRuns := by
  cases h : s.settled <;> simp [rejectP, h]

theorem resolveP_projs (s : SessionState) :
    (resolveP s).effects = s.effects ∧ (resolveP s).cleanedUp = s.cleanedUp ∧
    (resolveP s).cleanupRuns = s.cleanupRuns := by
  cases h : s.settled <;> simp [resolveP, h]

theorem step_settled_of_some (s : SessionState) (ev : Ev) (o : Outcome)
    (h : s.settled = some o) :
    (step s ev).settled = s.settled ∧ (step s ev).doneOut = s.doneOut := by
  cases ev with
  | abort r =>
    cases ha : s.aborted with
    | some x => simp [step, ha]
    | none =>
      have hs : (cleanup { s with aborted := some r }).settled = some o := by
        rw [cleanup_settled]; exact h
      simp only [step, ha]
      rw [rejectP_of_some _ _ _ hs, cleanup_settled, cleanup_doneOut]
      exact ⟨rfl, rfl⟩
  | finish =>
    by_cases hf : s.finishFired
    · simp [step, hf]
    · cases ha : s.aborted with
      | some x => simp [step, hf, ha]
      | none =>
        have hs : (cleanup { s with aborted := none, finishFired := true }).settled = some o := by
          rw [cleanup_settled]; exact h
        simp only [step, ha]
        rw [if_neg hf, resolveP_of_some _ _ hs, cleanup_settled, cleanup_doneOut]
        exact ⟨rfl, rfl⟩
  | verr e =>
    by_cases hf : s.vErrFired
    · simp [step, hf]
    · cases ha : s.aborted with
      | some x => simp [step, hf, ha]
      | none =>
        have hs : (cleanup { s with aborted := none, vErrFired := true }).settled = some o := by
          rw [cleanup_settled]; exact h
        simp only [step, ha]
        rw [if_neg hf, rejectP_of_some _ _ _ hs, cleanup_settled, cleanup_doneOut]
        exact ⟨rfl, rfl⟩
  | aerr e =>
    by_cases hf : s.aErrFired
    · simp [step, hf]
    · cases ha : s.aborted with
      | some x => simp [step, hf, ha]
      | none =>
        have hs : (cleanup { s with aborted := none, aErrFired := true }).settled = some o := by
          rw [cleanup_settled]; exact h
        simp only [step, ha]
        rw [if_neg hf, rejectP_of_some _ _ _ hs, cleanup_settled, cleanup_doneOut]
        exact ⟨rfl, rfl⟩

theorem foldl_settled_of_some (tr : List Ev) (s : SessionState) (o : Outcome)
    (h : s.settled = some o) :
    (tr.foldl step s).settled = s.settled ∧ (tr.foldl step s).doneOut = s.doneOut := by
  induction tr generalizing s with
  | nil => exact ⟨rfl, rfl⟩
  | cons ev rest ih =>
    have hstep := step_settled_of_some s ev o h
    have hs2 : (step s ev).settled = some o := by rw [hstep.1]; exact h
    have := ih (step s ev) hs2
    exact ⟨by rw [List.foldl_cons, this.1, hstep.1],
           by rw [List.foldl_cons, this.2, hstep.2]⟩

theorem cleanup_inv (s : SessionState) (h : SessionInv s) : SessionInv (cleanup s) := by
  unfold SessionInv at *
  by_cases hc : s.cleanedUp = true
  · simp [cleanup, hc, h.1, h.2]
  · simp only [Bool.not_eq_true] at hc
    simp [hc] at h
    simp [cleanup, hc, h.1, h.2]

theorem step_inv (s : SessionState) (ev : Ev) (h : SessionInv s) : SessionInv (step s ev) := by
  have hrej : ∀ (s2 : SessionState) (e : ℕ), SessionInv s2 → SessionInv (rejectP s2 e) := by
    intro s2 e h2
    have hp := rejectP_projs s2 e
    unfold SessionInv at *
    rw [hp.1, hp.2.1, hp.2.2]
    exact h2
  have hres : ∀ (s2 : SessionState), SessionInv s2 → SessionInv (resolveP s2) := by
    intro s2 h2
    have hp := resolveP_projs s2
    unfold SessionInv at *
    rw [hp.1, hp.2.1, hp.2.2]
    exact h2
  have hbase : ∀ (a : Option ℕ) (ff vf af : Bool),
      SessionInv { s with aborted := a, finishFired := ff, vErrFired := vf, aErrFired := af } := by
    intro a ff vf af
    exact h
  cases ev with
  | abort r =>
    cases ha : s.aborted with
    | some x => simpa [step, ha] using h
    | none =>
      simp only [step, ha]
      exact hrej _ _ (cleanup_inv _ (hbase (some r) s.finishFired s.vErrFired s.aErrFired))
  | finish =>
    by_cases hf : s.finishFired
    · simpa [step, hf] using h
    · cases ha : s.aborted with
      | some x =>
        simp only [step, ha, if_neg hf]
        exact hbase s.aborted true s.vErrFired s.aErrFired
      | none =>
        simp only [step, ha, if_neg hf]
        exact hres _ (cleanup_inv _ (hbase none true s.vErrFired s.aErrFired))
  | verr e =>
    by_cases hf : s.vErrFired
    · simpa [step, hf] using h
    · cases ha : s.aborted with
      | some x =>
        simp only [step, ha, if_neg hf]
        exact hbase s.aborted s.finishFired true s.aErrFired
      | none =>
        simp only [step, ha, if_neg hf]
        exact hrej _ _ (cleanup_inv _ (hbase none s.finishFired true s.aErrFired))
  | aerr e =>
    by_cases hf : s.aErrFired
    · simpa [step, hf] using h
    · cases ha : s.aborted with
      | some x =>
        simp only [step, ha, if_neg hf]
        exact hbase s.aborted s.finishFired s.vErrFired true
      | none =>
        simp only [step, ha, if_neg hf]
        exact hrej _ _ (cleanup_inv _ (hbase none s.finishFired s.vErrFired true))

theorem foldl_inv (tr : List Ev) (s : SessionState) (h : SessionInv s) :
    SessionInv (tr.foldl step s) := by
  induction tr generalizing s with
  | nil => exact h
  | cons ev rest ih => exact ih _ (step_inv _ _ h)

theorem runSession_inv (tr : List Ev) : SessionInv (runSession tr) :=
  foldl_inv tr sessionInit ⟨rfl, rfl⟩

theorem cleanup_cleanedUp_true (s : SessionState) : (cleanup s).cleanedUp = true := by
  by_cases h : s.cleanedUp = true
  · simp [cleanup, h]
  · simp only [Bool.not_eq_true] at h
    simp [cleanup, h]

theorem step_cleanedUp (s : SessionState) (ev : Ev) (h : s.cleanedUp = true) :
    (step s ev).cleanedUp = true := by
  cases ev with
  | abort r =>
    cases ha : s.aborted with
    | some x => simpa [step, ha] using h
    | none =>
      simp only [step, ha]
      rw [(rejectP_projs _ _).2.1]
      exact cleanup_cleanedUp_true _
  | finish =>
    by_cases hf : s.finishFired
    · simpa [step, hf] using h
    · cases ha : s.aborted with
      | some x => simp only [step, ha, if_neg hf]; exact h
      | none =>
        simp only [step, ha, if_neg hf]
        rw [(resolveP_projs _).2.1]
        exact cleanup_cleanedUp_true _
  | verr e =>
    by_cases hf : s.vErrFired
    · simpa [step, hf] using h
    · cases ha : s.aborted with
      | some x => simp only [step, ha, if_neg hf]; exact h
      | none =>
        simp only [step, ha, if_neg hf]
        rw [(rejectP_projs _ _).2.1]
        exact cleanup_cleanedUp_true _
  | aerr e =>
    by_cases hf : s.aErrFired
    · simpa [step, hf] using h
    · cases ha : s.aborted with
      | some x => simp only [step, ha, if_neg hf]; exact h
      | none =>
        simp only [step, ha, if_neg hf]
        rw [(rejectP_projs _ _).2.1]
        exact cleanup_cleanedUp_true _

theorem step_init_cleanedUp (ev : Ev) : (step sessionInit ev).cleanedUp = true := by
  cases ev with
  | abort r =>
    simp only [step, sessionInit]
    rw [(rejectP_projs _ _).2.1]
    exact cleanup_cleanedUp_true _
  | finish =>
    simp only [step, sessionInit, Bool.false_eq_true, if_false]
    rw [(resolveP_projs _).2.1]
    exact cleanup_cleanedUp_true _
  | verr e =>
    simp only [step, sessionInit, Bool.false_eq_true, if_false]
    rw [(rejectP_projs _ _).2.1]
    exact cleanup_cleanedUp_true _
  | aerr e =>
    simp only [step, sessionInit, Bool.false_eq_true, if_false]
    rw [(rejectP_projs _ _).2.1]
    exact cleanup_cleanedUp_true _

theorem foldl_cleanedUp (tr : List Ev) (s : SessionState) (h : s.cleanedUp = true) :
    (tr.foldl step s).cleanedUp = true := by
  induction tr generalizing s with
  | nil => exact h
  | cons ev rest ih => exact ih _ (step_cleanedUp _ _ h)

theorem runSession_cleanedUp (tr : List Ev) (h : tr ≠ []) :
    (runSession tr).cleanedUp = true := by
  cases tr with
  | nil => exact absurd rfl h
  | cons ev rest =>
    unfold runSession
    rw [List.foldl_cons]
    exact foldl_cleanedUp rest _ (step_init_cleanedUp ev)

theorem run_finish_first (rest : List Ev) :
    (runSession (Ev.finish :: rest)).settled = some Outcome.ok ∧
    (runSession (Ev.finish :: rest)).doneOut = some Outcome.ok := by
  have h1 : (step sessionInit Ev.finish).settled = some Outcome.ok := by
    simp [step, sessionInit, cleanup, resolveP]
  have h2 : (step sessionInit Ev.finish).doneOut = some Outcome.ok := by
    simp [step, sessionInit, cleanup, resolveP]
  have hp := foldl_settled_of_some rest (step sessionInit Ev.finish) Outcome.ok h1
  unfold runSession
  rw [List.foldl_cons]
  exact ⟨hp.1.trans h1, hp.2.trans h2⟩

theorem run_abort_first (r : ℕ) (rest : List Ev) :
    (runSession (Ev.abort r :: rest)).settled = some (Outcome.err r) ∧
    (runSession (Ev.abort r :: rest)).doneOut = some Outcome.ok := by
  have h1 : (step sessionInit (Ev.abort r)).settled = some (Outcome.err r) := by
    simp [step, sessionInit, cleanup, rejectP]
  have h2 : (step sessionInit (Ev.abort r)).doneOut = some Outcome.ok := by
    simp [step, sessionInit, cleanup, rejectP]
  have hp := foldl_settled_of_some rest (step sessionInit (Ev.abort r)) (Outcome.err r) h1
  unfold runSession
  rw [List.foldl_cons]
  exact ⟨hp.1.trans h1, hp.2.trans h2⟩

theorem run_verr_first (e : ℕ) (rest : List Ev) :
    (runSession (Ev.verr e :: rest)).settled = some (Outcome.err e) ∧
    (runSession (Ev.verr e :: rest)).doneOut = some (Outcome.err e) := by
  have h1 : (step sessionInit (Ev.verr e)).settled = some (Outcome.err e) := by
    simp [step, sessionInit, cleanup, rejectP]
  have h2 : (step sessionInit (Ev.verr e)).doneOut = some (Outcome.err e) := by
    simp [step, sessionInit, cleanup, rejectP]
  have hp := foldl_settled_of_some rest (step sessionInit (Ev.verr e)) (Outcome.err e) h1
  unfold runSession
  rw [List.foldl_cons]
  exact ⟨hp.1.trans h1, hp.2.trans h2⟩

theorem run_aerr_first (e : ℕ) (rest : List Ev) :
    (runSession (Ev.aerr e :: rest)).settled = some (Outcome.err e) ∧
    (runSession (Ev.aerr e :: rest)).doneOut = some (Outcome.err e) := by
  have h1 : (step sessionInit (Ev.aerr e)).settled = some (Outcome.err e) := by
    simp [step, sessionInit, cleanup, rejectP]
  have h2 : (step sessionInit (Ev.aerr e)).doneOut = some (Outcome.err e) := by
    simp [step, sessionInit, cleanup, rejectP]
  have hp := foldl_settled_of_some rest (step sessionInit (Ev.aerr e)) (Outcome.err e) h1
  unfold runSession
  rw [List.foldl_cons]
  exact ⟨hp.1.trans h1, hp.2.trans h2⟩

/-- C1 counterexample: when the cancellation signal fires with reason 7, the
inner promise of playStream rejects with that reason, but the returned done
promise resolves, because the catch handler attached to the inner promise
does not rethrow an error strictly equal to the cancellation reason. The
claim that done rejects with the cancellation reason is therefore false. -/
theorem playStream_cancel_swallowed :
    (runSession [Ev.abort 7]).settled = some (Outcome.err 7) ∧
    (runSession [Ev.abort 7]).doneOut = some Outcome.ok ∧
    (runSession [Ev.abort 7]).doneOut ≠ some (Outcome.err 7) := by
  decide

/-- C1 (amended): the done promise returned by playStream resolves on
normal finish; on cancellation the inner race rejects with the cancellation
reason but the returned done promise resolves, the rejection being
swallowed by the catch handler; when the video or audio stream errors first
(before any cancellation), done rejects with the originating error. Normal
finish and cancellation are thus not distinguishable on done; only stream
errors reject. -/
theorem playStream_done_outcomes (r e1 e2 : ℕ) (rest : List Ev) :
    (runSession (Ev.finish :: rest)).doneOut = some Outcome.ok ∧
    (runSession (Ev.abort r :: rest)).settled = some (Outcome.err r) ∧
    (runSession (Ev.abort r :: rest)).doneOut = some Outcome.ok ∧
    (runSession (Ev.verr e1 :: rest)).doneOut = some (Outcome.err e1) ∧
    (runSession (Ev.aerr e2 :: rest)).doneOut = some (Outcome.err e2) :=
  ⟨(run_finish_first rest).2, (run_abort_first r rest).1, (run_abort_first r rest).2,
   (run_verr_first e1 rest).2, (run_aerr_first e2 rest).2⟩

/-- C2: over any interleaving of the terminal triggers of playStream
(cancellation, video error, audio error, finish, in any order, including
one firing after another), every registered cleanup effect occurs at most
once in the effect log, the cleanup body runs at most once, and on any
nonempty sequence of terminal triggers the cleanup body runs exactly once
and each registered effect occurs exactly once. -/
theorem cleanup_runs_at_most_once (tr : List Ev) (a : Effect) :
    (runSession tr).effects.count a ≤ 1 ∧
    (runSession tr).cleanupRuns ≤ 1 ∧
    (tr ≠ [] → (runSession tr).cleanupRuns = 1 ∧
      (a ∈ cleanupActions → (runSession tr).effects.count a = 1)) := by
  obtain ⟨he, hr⟩ := runSession_inv tr
  have hnd : cleanupActions.Nodup := by decide
  by_cases hc : (runSession tr).cleanedUp = true
  · rw [hc] at he hr
    simp only [if_true] at he hr
    refine ⟨?_, ?_, ?_⟩
    · rw [he]
      exact List.nodup_iff_count_le_one.mp hnd a
    · rw [hr]
    · intro _
      refine ⟨hr, fun ham => ?_⟩
      rw [he]
      exact List.count_eq_one_of_mem hnd ham
  · simp only [Bool.not_eq_true] at hc
    rw [hc] at he hr
    simp only [Bool.false_eq_true, if_false] at he hr
    refine ⟨?_, ?_, ?_⟩
    · rw [he]; simp
    · rw [hr]; norm_num
    · intro hne
      have := runSession_cleanedUp tr hne
      rw [hc] at this
      cases this

/-- C2 witness: with the video stream erroring as the only terminal
trigger, the cleanup body runs exactly once and the setVideoAttributes
effect occurs exactly once. -/
theorem cleanup_runs_at_most_once_witness :
    ([Ev.verr 3] ≠ ([] : List Ev)) ∧
    Effect.setVideoAttributes false ∈ cleanupActions ∧
    (runSession [Ev.verr 3]).cleanupRuns = 1 ∧
    (runSession [Ev.verr 3]).effects.count (Effect.setVideoAttributes false) = 1 := by
  have h := cleanup_runs_at_most_once [Ev.verr 3] (Effect.setVideoAttributes false)
  have h2 := h.2.2 (by decide)
  exact ⟨by decide, by decide, h2.1, h2.2 (by decide)⟩

/-- C4 counterexample: on the normal-finish terminal path the cleanup runs,
yet no call of streamer.stopStream appears among its effects: the
stopStream variable is bound to a placeholder that only logs Aborted, the
real call being commented out. The claim that cleanup stops the stream is
therefore false. -/
theorem cleanup_no_stop_call :
    (runSession [Ev.finish]).cleanupRuns = 1 ∧
    Effect.stopStreamCall ∉ (runSession [Ev.finish]).effects := by
  decide

/-- C4 (amended): on every terminal path of a session, the registered
cleanup runs the stopStream placeholder, which only logs Aborted and does
not invoke streamer.stopStream, and clears the speaking and video-active
connection attributes, each exactly once. -/
theorem cleanup_clears_attributes (tr : List Ev) (h : tr ≠ []) :
    (runSession tr).effects = cleanupActions ∧
    (runSession tr).effects.count (Effect.setSpeaking false) = 1 ∧
    (runSession tr).effects.count (Effect.setVideoAttributes false) = 1 ∧
    (runSession tr).effects.count Effect.logAborted = 1 ∧
    (runSession tr).effects.count Effect.stopStreamCall = 0 := by
  obtain ⟨he, _⟩ := runSession_inv tr
  have hc := runSession_cleanedUp tr h
  rw [hc] at he
  simp only [if_true] at he
  refine ⟨he, ?_, ?_, ?_, ?_⟩ <;> rw [he] <;> decide

/-- C4 amended witness: with the audio stream erroring as the only terminal
trigger, cleanup clears the speaking attribute exactly once and performs no
streamer.stopStream call. -/
theorem cleanup_clears_attributes_witness :
    ([Ev.aerr 5] ≠ ([] : List Ev)) ∧
    (runSession [Ev.aerr 5]).effects.count (Effect.setSpeaking false) = 1 ∧
    (runSession [Ev.aerr 5]).effects.count Effect.stopStreamCall = 0 := by
  have h := cleanup_clears_attributes [Ev.aerr 5] (by decide)
  exact ⟨by decide, h.2.1, h.2.2.2.2⟩

theorem stopBurst_below (T q : ℚ) (h : q < T * 1000) :
    stopBurst T burstInit q = burstInit := by
  simp [stopBurst, burstInit, h]

theorem burstRun_below (T : ℚ) (pre : List ℚ) (h : ∀ q ∈ pre, q < T * 1000) :
    burstRun T pre = burstInit := by
  unfold burstRun
  induction pre with
  | nil => rfl
  | cons q rest ih =>
    rw [List.foldl_cons, stopBurst_below T q (h q (List.mem_cons_self q rest))]
    exact ih fun x hx => h x (List.mem_cons_of_mem q hx)

theorem burstDone_fixed (T : ℚ) (post : List ℚ) :
    post.foldl (stopBurst T) burstDone = burstDone := by
  induction post with
  | nil => rfl
  | cons p rest ih =>
    rw [List.foldl_cons]
    have : stopBurst T burstDone p = burstDone := by
      simp [stopBurst, burstDone]
    rw [this, ih]

/-- C3: with a finite positive burst duration T configured and an audio
stream present, the armed state has noSleep set on both streams and sync
disabled on the video stream; processing any prefix of pts notifications
that are all below T * 1000 leaves that state unchanged (the flip never
happens early); at the first notification at or past T * 1000 the state
flips to sync restored on the video stream and noSleep cleared on both,
the listener unsubscribes, and the flip count is one after arbitrarily many
further notifications (the flip happens exactly once, never twice). -/
theorem stopBurst_one_shot (T : ℚ) (hT : 0 < T) (pre : List ℚ) (p : ℚ)
    (post : List ℚ) (hpre : ∀ q ∈ pre, q < T * 1000) (hp : T * 1000 ≤ p) :
    burstInit.vSync = false ∧ burstInit.vNoSleep = true ∧ burstInit.aNoSleep = true ∧
    burstRun T pre = burstInit ∧
    burstRun T (pre ++ p :: post) = burstDone ∧
    burstDone.vSync = true ∧ burstDone.vNoSleep = false ∧
    burstDone.aNoSleep = false ∧ burstDone.listenerOn = false ∧
    burstDone.flips = 1 := by
  refine ⟨rfl, rfl, rfl, burstRun_below T pre hpre, ?_, rfl, rfl, rfl, rfl, rfl⟩
  unfold burstRun
  rw [List.foldl_append, List.foldl_cons]
  have h1 : pre.foldl (stopBurst T) burstInit = burstInit := burstRun_below T pre hpre
  rw [h1]
  have h2 : stopBurst T burstInit p = burstDone := by
    simp [stopBurst, burstInit, burstDone, not_lt.mpr hp]
  rw [h2]
  exact burstDone_fixed T post

/-- C3 witness: burst duration 1 second, pts notifications 0 and 500 below
the 1000 millisecond threshold, then 1500 at or past it, then further
notifications 2500 and 100: the flip happens at 1500 and exactly once. -/
theorem stopBurst_one_shot_witness :
    (0:ℚ) < 1 ∧ (∀ q ∈ [(0:ℚ), 500], q < 1 * 1000) ∧ (1:ℚ) * 1000 ≤ 1500 ∧
    burstRun 1 [0, 500] = burstInit ∧
    burstRun 1 ([0, 500] ++ 1500 :: [2500, 100]) = burstDone := by
  have hpre : ∀ q ∈ [(0:ℚ), 500], q < 1 * 1000 := by
    intro q hq
    simp only [List.mem_cons, List.not_mem_nil, or_false] at hq
    rcases hq with rfl | rfl <;> norm_num
  have h := stopBurst_one_shot 1 (by norm_num) [0, 500] 1500 [2500, 100] hpre (by norm_num)
  exact ⟨by norm_num, hpre, by norm_num, h.2.2.2.1, h.2.2.2.2.1⟩

theorem setVolume_fin (s : AudioStream) (q : ℚ) :
    (s.setVolume (JSNum.fin q)).getVolume =
      (if q < 0 then JSNum.fin 0 else JSNum.fin (min q 2)) := by
  unfold AudioStream.setVolume AudioStream.getVolume
  by_cases h : q < 0
  · rw [if_pos (by simp [jsLt, h]), if_pos h]
  · rw [if_neg (by simp [jsLt, h]), if_neg h]
    simp [jsMin]

/-- C5: calling mute twice leaves the AudioStream state identical to
calling it once; while the stream is muted, sendFrame makes no transport
call, yet the dispatch step still advances the virtual clock by the frame
frametime and the stream stays Active. -/
theorem mute_idempotent_and_muted_advances (s : AudioStream) (c : Codec)
    (t : List ℕ → ℚ → Bool) (b : BaseState) (f : List ℕ) (ft : ℚ)
    (hm : s.isMuted = true) (hb : b.status = StreamStatus.active) :
    s.mute.mute = s.mute ∧
    (s.sendFrame c f ft).sent = none ∧
    (writeFrame c t b s f ft).clock = b.clock + ft ∧
    (writeFrame c t b s f ft).status = StreamStatus.active := by
  have hsend : s.sendFrame c f ft =
      { sent := none, decodeAttempted := false, loggedError := false } := by
    simp [AudioStream.sendFrame, hm]
  have hw : writeFrame c t b s f ft = { b with clock := b.clock + ft } := by
    simp [writeFrame, hb, hsend]
  exact ⟨rfl, by rw [hsend], by rw [hw], by rw [hw]; exact hb⟩

/-- C5 witness: a stream constructed muted, dispatching one frame of
frametime 20 from a fresh Active base state: nothing is sent and the clock
advances to 20. -/
theorem mute_idempotent_witness :
    (AudioStream.create true).isMuted = true ∧
    (BaseState.mk 0 StreamStatus.active).status = StreamStatus.active ∧
    ((AudioStream.create true).mute.mute = (AudioStream.create true).mute ∧
      ((AudioStream.create true).sendFrame codecId [1] 20).sent = none ∧
      (writeFrame codecId transportOk (BaseState.mk 0 StreamStatus.active)
        (AudioStream.create true) [1] 20).clock = (BaseState.mk 0 StreamStatus.active).clock + 20 ∧
      (writeFrame codecId transportOk (BaseState.mk 0 StreamStatus.active)
        (AudioStream.create true) [1] 20).status = StreamStatus.active) :=
  ⟨rfl, rfl, mute_idempotent_and_muted_advances _ codecId transportOk _ [1] 20 rfl rfl⟩

/-- C6: for every non-NaN argument the stored volume after setVolume lies
in the interval from 0 to 2; setVolume of -1 stores 0, setVolume of 5
stores 2, negative finite inputs store 0, finite inputs above 2 store 2,
and finite inputs inside the interval are stored unchanged. -/
theorem setVolume_clamps (s : AudioStream) (v : JSNum) (hv : v ≠ JSNum.nan) :
    (∃ q : ℚ, (s.setVolume v).getVolume = JSNum.fin q ∧ 0 ≤ q ∧ q ≤ 2) ∧
    (s.setVolume (JSNum.fin (-1))).getVolume = JSNum.fin 0 ∧
    (s.setVolume (JSNum.fin 5)).getVolume = JSNum.fin 2 ∧
    (∀ q : ℚ, q < 0 → (s.setVolume (JSNum.fin q)).getVolume = JSNum.fin 0) ∧
    (∀ q : ℚ, 2 < q → (s.setVolume (JSNum.fin q)).getVolume = JSNum.fin 2) ∧
    (∀ q : ℚ, 0 ≤ q → q ≤ 2 → (s.setVolume (JSNum.fin q)).getVolume = JSNum.fin q) := by
  refine ⟨?_, ?_, ?_, ?_, ?_, ?_⟩
  · cases v with
    | nan => exact absurd rfl hv
    | pinf =>
      refine ⟨2, ?_, by norm_num, le_refl 2⟩
      simp [AudioStream.setVolume, AudioStream.getVolume, jsLt, jsMin]
    | ninf =>
      refine ⟨0, ?_, le_refl 0, by norm_num⟩
      simp [AudioStream.setVolume, AudioStream.getVolume, jsLt, jsMin]
    | fin q =>
      rw [setVolume_fin]
      by_cases h : q < 0
      · exact ⟨0, by rw [if_pos h], le_refl 0, by norm_num⟩
      · push_neg at h
        exact ⟨min q 2, by rw [if_neg (not_lt.mpr h)],
          le_min h (by norm_num), min_le_right q 2⟩
  · rw [setVolume_fin, if_pos (by norm_num : (-1:ℚ) < 0)]
  · rw [setVolume_fin, if_neg (by norm_num : ¬(5:ℚ) < 0)]
    rw [min_eq_right (by norm_num : (2:ℚ) ≤ 5)]
  · intro q h
    rw [setVolume_fin, if_pos h]
  · intro q h
    rw [setVolume_fin, if_neg (not_lt.mpr (by linarith)),
      min_eq_right (le_of_lt h)]
  · intro q h0 h2
    rw [setVolume_fin, if_neg (not_lt.mpr h0), min_eq_left h2]

/-- C6 witness: setVolume 5 on a fresh stream stores exactly 2. -/
theorem setVolume_clamps_witness :
    (JSNum.fin 5 ≠ JSNum.nan) ∧
    ((AudioStream.create false).setVolume (JSNum.fin 5)).getVolume = JSNum.fin 2 := by
  have h := setVolume_clamps (AudioStream.create false) (JSNum.fin 5) (by simp)
  exact ⟨by simp, h.2.2.1⟩

/-- C7: when the stored volume is exactly 1.0 and the stream is not muted,
sendFrame forwards the frame payload byte-identical to its input with the
unchanged frametime, entering no decode or re-encode round trip and
logging nothing. -/
theorem volume_one_identity (s : AudioStream) (c : Codec) (f : List ℕ) (ft : ℚ)
    (hm : s.isMuted = false) (hv : s.volume = JSNum.fin 1) :
    s.sendFrame c f ft =
      { sent := some (f, ft), decodeAttempted := false, loggedError := false } := by
  simp [AudioStream.sendFrame, hm, hv, jsSEq]

/-- C7 witness: a fresh unmuted stream at volume 1 forwards the payload
unchanged even when paired with a codec whose decode always throws,
showing the round trip is not entered. -/
theorem volume_one_identity_witness :
    (AudioStream.create false).isMuted = false ∧
    (AudioStream.create false).volume = JSNum.fin 1 ∧
    (AudioStream.create false).sendFrame codecFail [9, 8] 20 =
      { sent := some ([9, 8], 20), decodeAttempted := false, loggedError := false } :=
  ⟨rfl, rfl, volume_one_identity _ codecFail [9, 8] 20 rfl rfl⟩

/-- C8: when the stored volume is a finite value q different from 1.0, the
stream is unmuted, decoding yields the sample list pcm and re-encoding the
scaled samples succeeds, sendFrame sends the re-encoded payload at the same
nominal frametime; each sample is multiplied by q, floored, and clamped
saturating into the signed 16-bit range: the result always lies in
[-32768, 32767], products above 32767 saturate to 32767, products below
-32768 saturate to -32768, and in-range products are kept (not wrapped). -/
theorem volume_scaling_saturates (s : AudioStream) (c : Codec) (f : List ℕ)
    (ft : ℚ) (q : ℚ) (pcm : List ℤ) (outp : List ℕ)
    (hm : s.isMuted = false) (hv : s.volume = JSNum.fin q) (hq : q ≠ 1)
    (hd : c.decode f = some pcm)
    (he : c.encode (pcm.map (jsScaleSample (JSNum.fin q))) = some outp) :
    s.sendFrame c f ft =
      { sent := some (outp, ft), decodeAttempted := true, loggedError := false } ∧
    (∀ z : ℤ, -32768 ≤ jsScaleSample (JSNum.fin q) z ∧
      jsScaleSample (JSNum.fin q) z ≤ 32767) ∧
    (∀ z : ℤ, (32767:ℚ) < q * (z:ℚ) → jsScaleSample (JSNum.fin q) z = 32767) ∧
    (∀ z : ℤ, q * (z:ℚ) < -32768 → jsScaleSample (JSNum.fin q) z = -32768) ∧
    (∀ z : ℤ, (-32768:ℚ) ≤ q * (z:ℚ) → q * (z:ℚ) ≤ 32767 →
      jsScaleSample (JSNum.fin q) z = ⌊q * (z:ℚ)⌋) := by
  refine ⟨?_, ?_, ?_, ?_, ?_⟩
  · simp [AudioStream.sendFrame, hm, hv, jsSEq, hq, hd, he]
  · intro z
    simp only [jsScaleSample]
    exact ⟨le_max_left _ _, max_le (by norm_num) (min_le_left _ _)⟩
  · intro z hz
    have h1 : (32767:ℤ) ≤ ⌊q * (z:ℚ)⌋ := by
      apply Int.le_floor.mpr
      push_cast
      linarith
    simp only [jsScaleSample]
    rw [min_eq_left h1, max_eq_right (by norm_num : (-32768:ℤ) ≤ 32767)]
  · intro z hz
    have h1 : (⌊q * (z:ℚ)⌋ : ℚ) < -32768 := lt_of_le_of_lt (Int.floor_le _) hz
    have h2 : ⌊q * (z:ℚ)⌋ < -32768 := by exact_mod_cast h1
    simp only [jsScaleSample]
    rw [min_eq_right (by linarith : ⌊q * (z:ℚ)⌋ ≤ 32767),
      max_eq_left (le_of_lt h2)]
  · intro z hlo hhi
    have h1 : (-32768:ℤ) ≤ ⌊q * (z:ℚ)⌋ := by
      apply Int.le_floor.mpr
      push_cast
      linarith
    have h2 : ⌊q * (z:ℚ)⌋ ≤ 32767 := by
      have := le_trans (Int.floor_le (q * (z:ℚ))) hhi
      exact_mod_cast this
    simp only [jsScaleSample]
    rw [min_eq_right h2, max_eq_right h1]

/-- C8 witness: volume 0 on an unmuted stream with the byte-wise codec:
the two decoded samples 1 and 2 are both scaled to 0 and the re-encoded
payload is sent at the unchanged frametime 20. -/
theorem volume_scaling_saturates_witness :
    ((0:ℚ) ≠ 1) ∧
    codecId.decode [1, 2] = some [1, 2] ∧
    codecId.encode ([1, 2].map (jsScaleSample (JSNum.fin 0))) = some [0, 0] ∧
    (AudioStream.mk false (JSNum.fin 0)).sendFrame codecId [1, 2] 20 =
      { sent := some ([0, 0], 20), decodeAttempted := true, loggedError := false } := by
  have hz : ∀ z : ℤ, jsScaleSample (JSNum.fin 0) z = 0 := by
    intro z
    simp [jsScaleSample]
  have hd : codecId.decode [1, 2] = some [1, 2] := by
    simp [codecId]
  have he : codecId.encode ([1, 2].map (jsScaleSample (JSNum.fin 0))) = some [0, 0] := by
    simp [codecId, hz]
  have h := volume_scaling_saturates (AudioStream.mk false (JSNum.fin 0)) codecId
    [1, 2] 20 0 [1, 2] [0, 0] rfl rfl (by norm_num) hd he
  exact ⟨by norm_num, hd, he, h.1⟩

/-- C9: when the stream is unmuted, the volume is not strictly-equal to
1.0, and decode throws (or decode succeeds and re-encode throws), sendFrame
falls back to forwarding the original unmodified frame, the failure is
logged, and the stream does not become Errored: with a succeeding transport
the dispatch leaves the stream Active; only a transport send failure moves
it to Errored. -/
theorem volume_fault_fallback (s : AudioStream) (c : Codec) (t : List ℕ → ℚ → Bool)
    (b : BaseState) (f : List ℕ) (ft : ℚ)
    (hm : s.isMuted = false) (hv : jsSEq s.volume (JSNum.fin 1) = false)
    (hb : b.status = StreamStatus.active)
    (hfail : c.decode f = none ∨
      ∃ pcm, c.decode f = some pcm ∧ c.encode (pcm.map (jsScaleSample s.volume)) = none) :
    s.sendFrame c f ft =
      { sent := some (f, ft), decodeAttempted := true, loggedError := true } ∧
    (t f ft = true → (writeFrame c t b s f ft).status = StreamStatus.active) ∧
    (t f ft = false → (writeFrame c t b s f ft).status = StreamStatus.errored) := by
  have hsend : s.sendFrame c f ft =
      { sent := some (f, ft), decodeAttempted := true, loggedError := true } := by
    rcases hfail with hd | ⟨pcm, hd, he⟩
    · simp [AudioStream.sendFrame, hm, hv, hd]
    · simp [AudioStream.sendFrame, hm, hv, hd, he]
  refine ⟨hsend, ?_, ?_⟩
  · intro ht
    simp [writeFrame, hb, hsend, ht]
  · intro ht
    simp [writeFrame, hb, hsend, ht]

/-- C9 witness: volume 0, unmuted, codec whose decode throws, succeeding
transport: the original frame is forwarded, the fault is logged, and the
stream stays Active. -/
theorem volume_fault_fallback_witness :
    (AudioStream.mk false (JSNum.fin 0)).isMuted = false ∧
    jsSEq (AudioStream.mk false (JSNum.fin 0)).volume (JSNum.fin 1) = false ∧
    codecFail.decode [7] = none ∧
    (AudioStream.mk false (JSNum.fin 0)).sendFrame codecFail [7] 20 =
      { sent := some ([7], 20), decodeAttempted := true, loggedError := true } ∧
    (writeFrame codecFail transportOk (BaseState.mk 0 StreamStatus.active)
      (AudioStream.mk false (JSNum.fin 0)) [7] 20).status = StreamStatus.active := by
  have hv : jsSEq (AudioStream.mk false (JSNum.fin 0)).volume (JSNum.fin 1) = false := by
    norm_num [jsSEq]
  have h := volume_fault_fallback (AudioStream.mk false (JSNum.fin 0)) codecFail
    transportOk (BaseState.mk 0 StreamStatus.active) [7] 20 rfl hv rfl (Or.inl rfl)
  exact ⟨rfl, hv, rfl, h.1, h.2.1 rfl⟩

/-- C10: setVolume with NaN stores NaN (the negative branch is not taken
and Math.min with NaN yields NaN), so getVolume returns NaN afterwards;
NaN is not strictly-equal to 1.0, so every subsequent unmuted sendFrame
enters the decode, scale and re-encode path. -/
theorem setVolume_nan_processing (s : AudioStream) (c : Codec) (f : List ℕ)
    (ft : ℚ) (hm : s.isMuted = false) :
    (s.setVolume JSNum.nan).getVolume = JSNum.nan ∧
    jsSEq (s.setVolume JSNum.nan).volume (JSNum.fin 1) = false ∧
    ((s.setVolume JSNum.nan).sendFrame c f ft).decodeAttempted = true := by
  have hvol : (s.setVolume JSNum.nan).volume = JSNum.nan := by
    simp [AudioStream.setVolume, jsLt, jsMin]
  have hmut : (s.setVolume JSNum.nan).isMuted = false := by
    simpa [AudioStream.setVolume, jsLt] using hm
  refine ⟨by simpa [AudioStream.getVolume] using hvol, by simp [jsSEq, hvol], ?_⟩
  simp only [AudioStream.sendFrame, hmut, hvol, jsSEq, Bool.false_eq_true, if_false]
  cases hd : c.decode f with
  | none => rfl
  | some pcm =>
    cases he : c.encode (pcm.map (jsScaleSample JSNum.nan)) with
    | none => simp [he]
    | some o2 => simp [he]

/-- C10 witness: a fresh unmuted stream after setVolume NaN reports NaN
from getVolume and enters the processing path on the next frame. -/
theorem setVolume_nan_processing_witness :
    (AudioStream.create false).isMuted = false ∧
    ((AudioStream.create false).setVolume JSNum.nan).getVolume = JSNum.nan ∧
    (((AudioStream.create false).setVolume JSNum.nan).sendFrame codecId [1] 20).decodeAttempted = true := by
  have h := setVolume_nan_processing (AudioStream.create false) codecId [1] 20 rfl
  exact ⟨rfl, h.1, h.2.2⟩
